import Mathlib

/-!
# Verification of the godns reconciliation engine

Shallow embedding of the core of `github.com/ninnemana/godns` (the version
cited by the design document: `service/service.go` with the `log.Contextual`
logger and `time.Ticker` scheduler, and `service/ip.go`), together with
theorems checking the natural-language design document against it.

The embedding models:
* the data model (`Config`, `Host`) from `service/service.go`;
* the response classification performed at the end of `Service.updateHost`;
* the per-tick reconcile loop `Service.execute`, with the network modelled
  as an oracle supplying the IP-resolution result and each host-update result;
* the scheduler loop `Service.Run`, both as a control-flow effect trace and as
  a discrete-time model of Go's `time.Ticker` receive/drop semantics;
* the construction path `New` and the HTTP request built by
  `Service.updateHost` (including Go's `base64.StdEncoding` and
  `url.Values.Encode`);
* the IP resolver `externalIP` from `service/ip.go`.
-/

deriving instance DecidableEq for Except

namespace GoDNS

/-! ## Data model (service/service.go, `Config` / `Host`) -/

/-- Model of `Host` from service/service.go: hostname plus the credentials used for
HTTP basic authentication. -/
structure Host where
  host : String
  user : String
  password : String
deriving DecidableEq

/-- Model of `Config` from service/service.go: the check interval (Go `time.Duration`,
an `int64` nanosecond count, modelled as `Int`) and the ordered host list. -/
structure Config where
  interval : Int
  hosts : List Host
deriving DecidableEq

/-! ## String primitives

Models of the Go standard-library string functions the service uses:
`strings.Contains` and `strings.TrimSpace`. -/

/-- Predicate `isPrefixL need hay`: true when the char list `need` is a prefix of
`hay` (Go's internal prefix test used by `strings.Contains`). -/
def isPrefixL : List Char → List Char → Bool
  | [], _ => true
  | _ :: _, [] => false
  | a :: as, b :: bs => a == b && isPrefixL as bs

/-- Predicate `hasSubstrL hay need`: `need` occurs contiguously inside `hay`. -/
def hasSubstrL : List Char → List Char → Bool
  | [], need => need.isEmpty
  | c :: cs, need => isPrefixL need (c :: cs) || hasSubstrL cs need

/-- Model of Go `strings.Contains s sub`. -/
def strContains (s sub : String) : Bool :=
  hasSubstrL s.data sub.data

/-- Model of Go `unicode.IsSpace`: the White_Space code points trimmed by
`strings.TrimSpace`. -/
def goIsSpace (c : Char) : Bool :=
  let n := c.toNat
  n == 32 || (9 ≤ n && n ≤ 13) || n == 0x85 || n == 0xA0 ||
  n == 0x1680 || (0x2000 ≤ n && n ≤ 0x200A) ||
  n == 0x2028 || n == 0x2029 || n == 0x202F || n == 0x205F || n == 0x3000

/-- Model of Go `strings.TrimSpace`: drop leading and trailing white space. -/
def trimSpace (s : String) : String :=
  ⟨((s.data.dropWhile goIsSpace).reverse.dropWhile goIsSpace).reverse⟩

/-! ## Result classification (service/service.go:367-371 and 386-395)

`Service.updateHost` first rejects any response whose status code is at least
`http.StatusMultipleChoices` (= 300) before reading the body, and otherwise
inspects the body: a body containing `"good"` is a successful update, a body
containing `"nochg"` is a no-op, and anything else is returned as an error
wrapping the body text (`errors.Wrap(errDNSUpdate, string(data))`). -/

/-- Outcome of classifying one provider response, with the payload each
branch of `updateHost` puts into its log/error value: the status code for the
`resp.StatusCode >= 300` branch, the raw body for the default branch. -/
inductive UpdateOutcome where
  | updated
  | unchanged
  | failedStatus (status : Nat)
  | failedBody (body : String)
deriving DecidableEq

/-- The classification stage of `Service.updateHost` (service/service.go:367,
386-395): status guard first, then the `"good"` / `"nochg"` body switch in
source order. -/
def classifyResponse (status : Nat) (body : String) : UpdateOutcome :=
  if 300 ≤ status then
    UpdateOutcome.failedStatus status
  else if strContains body "good" then
    UpdateOutcome.updated
  else if strContains body "nochg" then
    UpdateOutcome.unchanged
  else
    UpdateOutcome.failedBody body

/-- Outcome variant used by the design document (§3, §4.4). -/
inductive Outcome where
  | Unchanged
  | Updated
  | Failed (detail : String)
deriving DecidableEq

/-- Modelled from the spec (§4.4): the Result Classifier table
`classify(status, body)` exactly as the design document states it. -/
def classifySpec (status : Nat) (body : String) : Outcome :=
  if 300 ≤ status then
    Outcome.Failed ("http status " ++ toString status)
  else if strContains body "good" then
    Outcome.Updated
  else if strContains body "nochg" then
    Outcome.Unchanged
  else
    Outcome.Failed body

/-- Abstraction map from the code-level outcome to the spec-level `Outcome`:
a status failure is reported through the status code, a body failure through
the raw body. -/
def toSpecOutcome : UpdateOutcome → Outcome
  | UpdateOutcome.updated => Outcome.Updated
  | UpdateOutcome.unchanged => Outcome.Unchanged
  | UpdateOutcome.failedStatus s => Outcome.Failed ("http status " ++ toString s)
  | UpdateOutcome.failedBody b => Outcome.Failed b

/-! ## Reconcile engine (service/service.go:291-328, `Service.execute`)

`execute` resolves the external IP once; on failure it returns
`fmt.Errorf("failed to get local IP address: %w", err)` without touching any
host. Otherwise it iterates over `s.config.Hosts` in order, calls
`s.updateHost(ctx, host, ip)` for each entry, logs (but does not propagate)
each per-host failure, and finally returns `nil`.

The network is modelled as oracles: `ipRes` is the result of `externalIP`, and
`upd i` is the result of the `updateHost` call for the i-th host entry. -/

/-- What one tick of `execute` did: the `updateHost` calls it issued (host
entry paired with the IP passed in), the hosts whose update failed (each
logged at service/service.go:318-323), and the error value `execute`
returned (`none` models Go `nil`). -/
structure TickReport where
  updateCalls : List (Host × String)
  loggedFailures : List Host
  tickError : Option String
deriving DecidableEq

/-- The host loop of `execute` (service/service.go:316-325): one `updateHost`
call per host entry, in order; a failing call is logged and the loop
continues. Returns the issued calls and the hosts whose update failed. -/
def executeHostsLoop (upd : Nat → Except String Unit) (ip : String) :
    List Host → Nat → List (Host × String) × List Host
  | [], _ => ([], [])
  | h :: hs, i =>
    let rest := executeHostsLoop upd ip hs (i + 1)
    ((h, ip) :: rest.1,
      match upd i with
      | Except.error _ => h :: rest.2
      | Except.ok _ => rest.2)

/-- Model of `Service.execute` (service/service.go:291-328). `ipRes` is the result of
the `externalIP` call; `upd i` the result of the i-th `updateHost` call. -/
def execute (hosts : List Host) (ipRes : Except String String)
    (upd : Nat → Except String Unit) : TickReport :=
  match ipRes with
  | Except.error e =>
    { updateCalls := []
      loggedFailures := []
      tickError := some ("failed to get local IP address: " ++ e) }
  | Except.ok ip =>
    let loopOut := executeHostsLoop upd ip hosts 0
    { updateCalls := loopOut.1
      loggedFailures := loopOut.2
      tickError := none }

/-! ## Scheduler control flow (service/service.go:272-289, `Service.Run`)

`Run` logs the interval, creates a `time.Ticker`, and loops forever: start a
span, log, call `execute`, log a failing pass, finish the span, and block on
the ticker channel. The body contains no `select` on `ctx.Done()` and no
`return`/`break`, so the context passed to `Run` is threaded to spans and to
`execute` but never consulted for cancellation. -/

/-- Observable control-flow events of `Run`'s loop. `observeCancel` and
`exitLoop` are included so their absence from every trace is expressible. -/
inductive RunEffect where
  | startSpan
  | logCheck
  | execTick
  | logTickError
  | finishSpan
  | awaitTick
  | observeCancel
  | exitLoop
deriving DecidableEq

/-- One iteration of `Run`'s loop body (service/service.go:277-288);
`tickFailed` records whether the `execute` call of that iteration returned an
error (in which case the failure is logged and the loop continues). -/
def runIteration (tickFailed : Bool) : List RunEffect :=
  [RunEffect.startSpan, RunEffect.logCheck, RunEffect.execTick] ++
    (if tickFailed then [RunEffect.logTickError] else []) ++
    [RunEffect.finishSpan, RunEffect.awaitTick]

/-- Trace of the first `tickFails.length` iterations of `Run`. The first
argument models whether the caller's context is cancelled; the source never
reads it, so the trace cannot depend on it. -/
def runTrace : Bool → List Bool → List RunEffect
  | _, [] => []
  | ctxCancelled, b :: bs => runIteration b ++ runTrace ctxCancelled bs

/-! ## Scheduler timing (service/service.go:275, 287)

`Run` creates the ticker once (`time.NewTicker(s.config.Interval)`) before the
loop and receives from its channel at the end of every iteration. Go's
`time.Ticker` is fixed-rate: it fires at times `interval, 2*interval, ...`
measured from its creation, on a channel with a one-element buffer, and drops
a fire when the buffer is still full ("the ticker will adjust the time
interval or drop ticks to make up for slow receivers").

Discrete-time model, all times in abstract units from ticker creation:
a pass that starts at `s` and takes `d` ends at `e = s + d`; the receive at
the end of the pass consumes the earliest fire after the previous receive if
one has already happened (returning at `e`), and otherwise blocks until the
next fire. All fires up to the receive time are then consumed or dropped. -/

/-- Number of ticker fires (multiples of `interval`) in the half-open window
`(a, b]`, for `interval > 0`. -/
def firesIn (interval a b : Nat) : Nat :=
  b / interval - a / interval

/-- The smallest ticker fire time strictly greater than `t`. -/
def nextFire (interval t : Nat) : Nat :=
  interval * (t / interval + 1)

/-- Time at which `<-c.C` at the end of a pass returns: `prev` is the time of
the previous receive (every fire up to it is consumed or dropped), `e` the
time the pass ends. If a fire happened in `(prev, e]` it is already buffered
and the receive returns immediately at `e`; otherwise the receive blocks
until the next fire. -/
def receiveTime (interval prev e : Nat) : Nat :=
  if firesIn interval prev e = 0 then nextFire interval e else e

/-- Fires dropped at one receive: of the fires in the window, one is
consumed and the rest were dropped while the buffer was full. -/
def stepDropped (interval prev e : Nat) : Nat :=
  firesIn interval prev e - 1

/-- Start times of the reconcile passes of `Run`, given the pass durations:
the first pass starts immediately at the given start time, and each later
pass starts when the ticker receive at the end of the previous pass returns. -/
def passStarts (interval : Nat) : Nat → List Nat → List Nat
  | s, [] => [s]
  | s, d :: ds => s :: passStarts interval (receiveTime interval s (s + d)) ds

/-- Modelled from the spec (§4.1): fixed-delay scheduling — "the wait for the
next tick begins only after the current reconcile pass completes", so the
next pass starts a full `interval` after the previous pass ends. -/
def passStartsFixedDelaySpec (interval : Nat) : Nat → List Nat → List Nat
  | s, [] => [s]
  | s, d :: ds => s :: passStartsFixedDelaySpec interval (s + d + interval) ds

/-- Total ticker fires silently dropped over a run with the given pass
durations. -/
def droppedTicks (interval : Nat) : Nat → List Nat → Nat
  | _, [] => 0
  | s, d :: ds =>
    stepDropped interval s (s + d) +
      droppedTicks interval (receiveTime interval s (s + d)) ds

/-! ## Construction (service/service.go:237-270, `New`) and ticker creation

`New` opens the config file, decodes it as YAML, and unconditionally returns
the service; no field of the decoded config is validated. The HTTP client it
builds carries `Timeout: httpTimeout` (5 seconds). File open and YAML decode
are modelled as oracles. Go's `time.NewTicker` (called by `Run` at
service/service.go:275) panics when the duration is not positive
("non-positive interval for NewTicker"); `newTicker` models that runtime
check. -/

/-- An HTTP client as far as this embedding observes it: its request timeout
in seconds, `none` meaning the Go zero value (no timeout). -/
structure HTTPClientConfig where
  timeoutSeconds : Option Nat
deriving DecidableEq

/-- Constant `httpTimeout` (service/service.go:211). -/
def httpTimeoutSeconds : Nat := 5

/-- The client `New` builds at service/service.go:262-267 and `updateHost`
uses for every provider request. -/
def serviceHTTPClient : HTTPClientConfig :=
  { timeoutSeconds := some httpTimeoutSeconds }

/-- The fields of the constructed `Service` that this embedding observes. -/
structure ServiceState where
  config : Config
  client : HTTPClientConfig
deriving DecidableEq

/-- Model of `New` (service/service.go:237-270): fail if the config file cannot be
opened, fail if it cannot be decoded, otherwise build the service. No
validation is applied to the decoded config. -/
def newService (opened : Except String Unit) (decoded : Except String Config) :
    Except String ServiceState :=
  match opened with
  | Except.error e => Except.error ("failed to open config file: " ++ e)
  | Except.ok _ =>
    match decoded with
    | Except.error e => Except.error ("failed to read config file: " ++ e)
    | Except.ok cfg => Except.ok { config := cfg, client := serviceHTTPClient }

/-- Go `time.NewTicker` as called by `Run` (service/service.go:275): a
non-positive duration is a runtime panic before the first pass, any positive
duration yields a ticker. -/
def newTicker (interval : Int) : Except String Unit :=
  if interval ≤ 0 then Except.error "non-positive interval for NewTicker"
  else Except.ok ()

/-! ## Update request (service/service.go:330-358, `Service.updateHost`)

`updateHost` builds a GET request to the fixed endpoint, sets the raw query
to `url.Values.Encode()` of `hostname` and `myip`, and adds an
`Authorization: Basic <base64(user:password)>` header and a fixed
`User-Agent` header before sending it through `s.client`. Models of the Go
standard-library pieces involved: UTF-8 byte encoding (`[]byte(string)`),
`base64.StdEncoding.EncodeToString`, `url.QueryEscape`, and
`url.Values.Encode` (keys sorted byte-wise, each key/value escaped). -/

/-- The UTF-8 bytes of one code point (Go `[]byte(string)` per rune). -/
def utf8EncodeChar (n : Nat) : List Nat :=
  if n < 0x80 then [n]
  else if n < 0x800 then
    [0xC0 + n / 64, 0x80 + n % 64]
  else if n < 0x10000 then
    [0xE0 + n / 4096, 0x80 + (n / 64) % 64, 0x80 + n % 64]
  else
    [0xF0 + n / 262144, 0x80 + (n / 4096) % 64, 0x80 + (n / 64) % 64,
      0x80 + n % 64]

/-- The UTF-8 bytes of a string (Go `[]byte(s)`). -/
def strBytes (s : String) : List Nat :=
  (s.data.map (fun c => utf8EncodeChar c.toNat)).flatten

/-- The standard base64 alphabet. -/
def b64Alphabet : List Char :=
  "ABCDEFGHIJKLMNOPQRSTUVWXYZabcdefghijklmnopqrstuvwxyz0123456789+/".data

/-- The base64 digit for a 6-bit value. -/
def b64Char (n : Nat) : Char :=
  b64Alphabet.getD n 'A'

/-- Base64 of a byte stream, three bytes at a time, `'='`-padded (Go
`base64.StdEncoding`). -/
def base64Chunks : List Nat → List Char
  | a :: b :: c :: rest =>
    b64Char (a / 4) :: b64Char (a % 4 * 16 + b / 16) ::
      b64Char (b % 16 * 4 + c / 64) :: b64Char (c % 64) :: base64Chunks rest
  | [a, b] =>
    [b64Char (a / 4), b64Char (a % 4 * 16 + b / 16), b64Char (b % 16 * 4), '=']
  | [a] => [b64Char (a / 4), b64Char (a % 4 * 16), '=', '=']
  | [] => []

/-- Go `base64.StdEncoding.EncodeToString([]byte(s))`. -/
def base64Encode (s : String) : String :=
  ⟨base64Chunks (strBytes s)⟩

/-- Characters Go `url.QueryEscape` leaves unescaped: alphanumerics and
`-`, `_`, `.`, `~`. -/
def isUnreservedQueryChar (c : Char) : Bool :=
  c.isAlphanum || c == '-' || c == '_' || c == '.' || c == '~'

/-- Uppercase hex digit. -/
def hexDigit (n : Nat) : Char :=
  "0123456789ABCDEF".data.getD n '0'

/-- Escape one character as Go `url.QueryEscape` does: unreserved characters
kept, space becomes `+`, everything else percent-encoded per UTF-8 byte. -/
def escapeChar (c : Char) : List Char :=
  if isUnreservedQueryChar c then [c]
  else if c == ' ' then ['+']
  else
    ((utf8EncodeChar c.toNat).map
      (fun b => ['%', hexDigit (b / 16), hexDigit (b % 16)])).flatten

/-- Go `url.QueryEscape`. -/
def queryEscape (s : String) : String :=
  ⟨(s.data.map escapeChar).flatten⟩

/-- Byte-wise (here: code-point-wise) lexicographic order used by Go
`sort.Strings` on the keys of a `url.Values`. -/
def charListLe : List Char → List Char → Bool
  | [], _ => true
  | _ :: _, [] => false
  | a :: as, b :: bs =>
    a.toNat < b.toNat || (a.toNat == b.toNat && charListLe as bs)

/-- Insert one key/value pair into a key-sorted list. -/
def insertByKey (p : String × String) :
    List (String × String) → List (String × String)
  | [] => [p]
  | q :: qs =>
    if charListLe p.1.data q.1.data then p :: q :: qs else q :: insertByKey p qs

/-- Sort key/value pairs by key (Go `url.Values.Encode` sorts the keys). -/
def sortByKey : List (String × String) → List (String × String)
  | [] => []
  | p :: ps => insertByKey p (sortByKey ps)

/-- Join with `&`. -/
def joinAmp : List String → String
  | [] => ""
  | [x] => x
  | x :: xs => x ++ "&" ++ joinAmp xs

/-- Go `url.Values.Encode` for the distinct-key pair lists `updateHost`
builds: sort by key, escape each key and value, join `k=v` pairs with `&`. -/
def encodeValues (kvs : List (String × String)) : String :=
  joinAmp ((sortByKey kvs).map (fun p => queryEscape p.1 ++ "=" ++ queryEscape p.2))

/-- The provider request as far as this embedding observes it. -/
structure UpdateRequest where
  method : String
  url : String
  rawQuery : String
  authorization : String
  userAgent : String
deriving DecidableEq

/-- The request `Service.updateHost` builds and sends (service/service.go:
336-358): GET to the fixed endpoint, query `hostname`/`myip`, basic auth from
the host's credentials, fixed User-Agent. -/
def buildUpdateRequest (h : Host) (ip : String) : UpdateRequest :=
  { method := "GET"
    url := "https://domains.google.com/nic/update"
    rawQuery := encodeValues [("hostname", h.host), ("myip", ip)]
    authorization := "Basic " ++ base64Encode (h.user ++ ":" ++ h.password)
    userAgent := "Mozilla/5.0 (compatible; MSIE 9.0; Windows NT 6.1; Trident/5.0)" }

/-! ## IP resolver (service/ip.go:25-51, `externalIP`)

`externalIP` builds a GET request to `http://ifconfig.me/ip` carrying the
caller's context (`http.NewRequestWithContext`; the constant URL makes the
request-creation error branch unreachable), sends it through a freshly
constructed `&http.Client{}` (zero value: no timeout), turns a transport
error into the fresh error `errors.Errorf("failed to execute HTTP request")`
— dropping the cause — rejects any status at or above 300, and otherwise
returns the body with surrounding white space trimmed. -/

/-- The transport-level outcome of the one HTTP call `externalIP` makes:
either a transport error with its cause, or a response carrying the status
code and the result of reading the body. -/
inductive HTTPResult where
  | transportError (cause : String)
  | response (status : Nat) (bodyRead : Except String String)
deriving DecidableEq

/-- The error cases of `externalIP`. `transport` carries no cause: the source
builds a fresh error and discards the one returned by `Do` (service/ip.go:37). -/
inductive IPError where
  | transport
  | badStatus (status : Nat)
  | readBody (cause : String)
deriving DecidableEq

/-- The client `externalIP` constructs for each invocation
(`cl := &http.Client{}`, service/ip.go:33): all zero values, no timeout. -/
def externalIPClient : HTTPClientConfig :=
  { timeoutSeconds := none }

/-- Model of `externalIP` (service/ip.go:25-51) over the transport oracle. -/
def externalIP : HTTPResult → Except IPError String
  | HTTPResult.transportError _ => Except.error IPError.transport
  | HTTPResult.response status bodyRead =>
    if 300 ≤ status then Except.error (IPError.badStatus status)
    else
      match bodyRead with
      | Except.error cause => Except.error (IPError.readBody cause)
      | Except.ok data => Except.ok (trimSpace data)

/-! ## Concrete scenario data -/

/-- Sample host A for concrete scenarios. -/
def hostA : Host := { host := "a.example.com", user := "ua", password := "pa" }

/-- Sample host B for concrete scenarios. -/
def hostB : Host := { host := "b.example.com", user := "ub", password := "pb" }

/-- Sample host C for concrete scenarios. -/
def hostC : Host := { host := "c.example.com", user := "uc", password := "pc" }

/-- Update oracle in which only the second host entry (index 1) fails. -/
def updSecondFails : Nat → Except String Unit :=
  fun i => if i = 1 then Except.error "badauth" else Except.ok ()

/-! ## Helper lemmas -/

/-- The calls component of the host loop is one call per host entry, in
order, each carrying the resolved IP, independent of the update results. -/
theorem executeHostsLoop_calls (upd : Nat → Except String Unit) (ip : String) :
    ∀ (hosts : List Host) (i : Nat),
      (executeHostsLoop upd ip hosts i).1 = hosts.map (fun h => (h, ip)) := by
  intro hosts
  induction hosts with
  | nil => intro i; rfl
  | cons h hs ih =>
    intro i
    simp [executeHostsLoop, ih (i + 1)]

/-- String append is associative. -/
theorem strAppend_assoc (a b c : String) : a ++ b ++ c = a ++ (b ++ c) :=
  String.ext (by simp [String.data_append])

/-- Escaping a list of unreserved characters is the identity. -/
theorem escapeList_of_unreserved (l : List Char)
    (h : ∀ c ∈ l, isUnreservedQueryChar c = true) :
    (l.map escapeChar).flatten = l := by
  induction l with
  | nil => rfl
  | cons c cs ih =>
    have hc : escapeChar c = [c] := by
      rw [escapeChar, if_pos (h c (List.mem_cons_self c cs))]
    simp [hc, ih (fun x hx => h x (List.mem_cons_of_mem c hx))]

/-- Query-escaping a string of unreserved characters is the identity. -/
theorem queryEscape_of_unreserved (s : String)
    (h : ∀ c ∈ s.data, isUnreservedQueryChar c = true) : queryEscape s = s :=
  String.ext (escapeList_of_unreserved s.data h)

/-- Sanity check of the base64 model against a known vector. -/
theorem base64Encode_user_pass : base64Encode "user:pass" = "dXNlcjpwYXNz" := by
  decide

/-! ## Claims -/

/-- C1, counterexample: with three hosts of which only B fails, `execute`
logs exactly one failure (for B) yet still returns a nil tick error, so it
does not return a non-nil aggregate error when at least one host fails. -/
theorem execute_aggregate_error_cex :
    (execute [hostA, hostB, hostC] (Except.ok "1.2.3.4") updSecondFails).loggedFailures
        = [hostB] ∧
    (execute [hostA, hostB, hostC] (Except.ok "1.2.3.4") updSecondFails).tickError
        = none := by
  decide

/-- C1 (amended): whenever IP resolution succeeds, `execute` returns a nil
error regardless of how many host updates failed; every host entry still gets
its update call with the resolved IP, and per-host failures are only reported
individually. -/
theorem execute_ip_success_returns_nil (hosts : List Host) (ip : String)
    (upd : Nat → Except String Unit) :
    (execute hosts (Except.ok ip) upd).tickError = none ∧
    (execute hosts (Except.ok ip) upd).updateCalls = hosts.map (fun h => (h, ip)) := by
  refine ⟨rfl, ?_⟩
  simpa [execute] using executeHostsLoop_calls upd ip hosts 0

/-- C2: on a tick whose IP resolution succeeds, `execute` issues exactly one
update call per entry of the host list (duplicates included, in order), each
using the already-resolved IP, and the calls issued do not depend on which
updates fail — there is no short-circuiting. -/
theorem execute_one_call_per_entry (hosts : List Host) (ip : String)
    (upd upd' : Nat → Except String Unit) :
    (execute hosts (Except.ok ip) upd).updateCalls = hosts.map (fun h => (h, ip)) ∧
    (execute hosts (Except.ok ip) upd).updateCalls
      = (execute hosts (Except.ok ip) upd').updateCalls := by
  constructor
  · simpa [execute] using executeHostsLoop_calls upd ip hosts 0
  · simp [execute, executeHostsLoop_calls]

/-- C3: when IP resolution fails, `execute` issues zero update calls, logs no
host failure, and returns the resolution error wrapped as
"failed to get local IP address: (cause)". -/
theorem execute_ip_failure_aborts (hosts : List Host) (e : String)
    (upd : Nat → Except String Unit) :
    execute hosts (Except.error e) upd
      = { updateCalls := []
          loggedFailures := []
          tickError := some ("failed to get local IP address: " ++ e) } := rfl

/-- C4: the classification stage of `updateHost` realises the Result
Classifier table of the design document under the `toSpecOutcome` abstraction:
a status of at least 300 is Failed with a detail determined by the status
alone regardless of body, then a body containing "good" is Updated (checked
first), then "nochg" is Unchanged, and anything else is Failed carrying the
raw body; the four concrete examples of the table evaluate as stated. -/
theorem classify_matches_spec :
    (∀ s b, toSpecOutcome (classifyResponse s b) = classifySpec s b) ∧
    (∀ s b b', classifyResponse (300 + s) b = classifyResponse (300 + s) b') ∧
    toSpecOutcome (classifyResponse 200 "good 1.2.3.4") = Outcome.Updated ∧
    toSpecOutcome (classifyResponse 200 "nochg 1.2.3.4") = Outcome.Unchanged ∧
    toSpecOutcome (classifyResponse 200 "badauth") = Outcome.Failed "badauth" ∧
    toSpecOutcome (classifyResponse 302 "good") = Outcome.Failed "http status 302" := by
  refine ⟨?_, ?_, by decide, by decide, by decide, by decide⟩
  · intro s b
    unfold classifyResponse classifySpec
    by_cases h1 : 300 ≤ s <;>
      by_cases h2 : strContains b "good" = true <;>
        by_cases h3 : strContains b "nochg" = true <;>
          simp [h1, h2, h3, toSpecOutcome]
  · intro s b b'
    have h : 300 ≤ 300 + s := Nat.le_add_right 300 s
    simp [classifyResponse, h]

/-- C5: contrary to the claim, `Run` never observes context cancellation and
never exits its loop — the trace of any number of iterations, cancelled
context or not, contains no cancellation check and no exit, and with a
cancelled context two queued passes still both execute. -/
theorem run_ignores_cancellation :
    (∀ (c : Bool) (bs : List Bool),
      RunEffect.observeCancel ∉ runTrace c bs ∧ RunEffect.exitLoop ∉ runTrace c bs) ∧
    (runTrace true [false, true]).count RunEffect.execTick = 2 := by
  constructor
  · intro c bs
    induction bs with
    | nil => simp [runTrace]
    | cons b bs ih =>
      have hb : RunEffect.observeCancel ∉ runIteration b ∧
          RunEffect.exitLoop ∉ runIteration b := by
        cases b <;> decide
      constructor <;>
        · simp only [runTrace, List.mem_append, not_or]
          exact ⟨by first | exact hb.1 | exact hb.2, by first | exact ih.1 | exact ih.2⟩
  · decide

/-- C6, counterexample: with interval 2 and a first pass of duration 3, the
ticker model starts the next pass at time 3 (the tick buffered at time 2),
not at time 5 as fixed-delay semantics would; and with a pass of duration 5
one ticker fire is silently dropped. -/
theorem scheduler_fixed_delay_cex :
    passStarts 2 0 [3] = [0, 3] ∧
    passStartsFixedDelaySpec 2 0 [3] = [0, 5] ∧
    passStarts 2 0 [3] ≠ passStartsFixedDelaySpec 2 0 [3] ∧
    droppedTicks 2 0 [5] = 1 := by decide

/-- C6 (amended): `Run` has fixed-rate ticker semantics — the first pass
starts immediately; when every pass is faster than the interval, pass ends at
multiples of the interval receive the next tick exactly at the following
multiple; and a pass during which at least one tick fired is followed
immediately by the next pass, with surplus fires dropped. -/
theorem scheduler_fixed_rate_ticker :
    (∀ (i : Nat) (ds : List Nat), (passStarts i 0 ds).head? = some 0) ∧
    (∀ i k d : Nat, 0 < i → d < i →
      receiveTime i (k * i) (k * i + d) = (k + 1) * i) ∧
    (∀ i s d : Nat, 0 < i → 1 ≤ firesIn i s (s + d) →
      receiveTime i s (s + d) = s + d) := by
  refine ⟨?_, ?_, ?_⟩
  · intro i ds; cases ds <;> rfl
  · intro i k d hi hd
    have h1 : k * i + d = d + i * k := by ring
    have hdiv : (k * i + d) / i = k := by
      rw [h1, Nat.add_mul_div_left _ _ hi, Nat.div_eq_of_lt hd, Nat.zero_add]
    have hki : k * i / i = k := Nat.mul_div_cancel k hi
    have hf : firesIn i (k * i) (k * i + d) = 0 := by
      simp [firesIn, hdiv, hki]
    rw [receiveTime, if_pos hf, nextFire, hdiv]
    ring
  · intro i s d hi hf
    rw [receiveTime, if_neg (by omega)]

/-- C6 witness: the fixed-rate and immediate-receive parts of the amended
scheduler theorem instantiated at concrete times. -/
theorem scheduler_fixed_rate_ticker_witness :
    ((0 : Nat) < 2 ∧ (1 : Nat) < 2 ∧ receiveTime 2 (1 * 2) (1 * 2 + 1) = (1 + 1) * 2) ∧
    ((1 : Nat) ≤ firesIn 2 0 (0 + 3) ∧ receiveTime 2 0 (0 + 3) = 0 + 3) :=
  ⟨⟨by decide, by decide, scheduler_fixed_rate_ticker.2.1 2 1 1 (by decide) (by decide)⟩,
   ⟨by decide, scheduler_fixed_rate_ticker.2.2 2 0 3 (by decide) (by decide)⟩⟩

/-- C7, counterexample: `New` accepts a config whose interval is -1 — no
construction-time validation of the interval exists. -/
theorem new_interval_validation_cex :
    ((-1 : Int) ≤ 0) ∧
    newService (Except.ok ()) (Except.ok { interval := -1, hosts := [] })
      = Except.ok { config := { interval := -1, hosts := [] },
                    client := serviceHTTPClient } :=
  ⟨by decide, rfl⟩

/-- C7 (amended): `New` performs no validation of the decoded config — any
interval is accepted at construction — and a non-positive interval only
surfaces when `Run` creates the ticker, which panics exactly when the
interval is not positive. -/
theorem new_accepts_any_interval (cfg : Config) (i : Int) :
    newService (Except.ok ()) (Except.ok cfg)
      = Except.ok { config := cfg, client := serviceHTTPClient } ∧
    (newTicker i = Except.ok () ↔ 0 < i) := by
  refine ⟨rfl, ?_⟩
  by_cases h : i ≤ 0
  · simp [newTicker, h]
  · simp [newTicker, h]
    omega

/-- C8: for a host and IP of unreserved characters, the update request is a
GET to https://domains.google.com/nic/update with raw query
"hostname=(host)&myip=(ip)", an Authorization header of Basic
base64(user:password), a non-empty User-Agent, and the client it is sent
through carries the 5-second timeout set in `New`. -/
theorem update_request_shape (h : Host) (ip : String)
    (hhost : ∀ c ∈ h.host.data, isUnreservedQueryChar c = true)
    (hip : ∀ c ∈ ip.data, isUnreservedQueryChar c = true) :
    (buildUpdateRequest h ip).method = "GET" ∧
    (buildUpdateRequest h ip).url = "https://domains.google.com/nic/update" ∧
    (buildUpdateRequest h ip).rawQuery = "hostname=" ++ h.host ++ "&myip=" ++ ip ∧
    (buildUpdateRequest h ip).authorization
      = "Basic " ++ base64Encode (h.user ++ ":" ++ h.password) ∧
    (buildUpdateRequest h ip).userAgent ≠ "" ∧
    serviceHTTPClient.timeoutSeconds = some httpTimeoutSeconds := by
  refine ⟨rfl, rfl, ?_, rfl, ?_, rfl⟩
  · show encodeValues [("hostname", h.host), ("myip", ip)] = _
    have hsort : sortByKey [("hostname", h.host), ("myip", ip)]
        = [("hostname", h.host), ("myip", ip)] := by
      have hk : charListLe "hostname".data "myip".data = true := by decide
      simp [sortByKey, insertByKey, hk]
    have hq : queryEscape "hostname" = "hostname" := by decide
    have hm : queryEscape "myip" = "myip" := by decide
    calc encodeValues [("hostname", h.host), ("myip", ip)]
        = "hostname" ++ "=" ++ h.host ++ "&" ++ ("myip" ++ "=" ++ ip) := by
          rw [encodeValues, hsort]
          simp [joinAmp, hq, hm, queryEscape_of_unreserved h.host hhost,
            queryEscape_of_unreserved ip hip]
      _ = "hostname=" ++ h.host ++ "&myip=" ++ ip := by
          apply String.ext
          have d1 : ("hostname=" : String).data = "hostname".data ++ "=".data := by
            decide
          have d2 : ("&myip=" : String).data = "&".data ++ "myip".data ++ "=".data := by
            decide
          simp [String.data_append, d1, d2, List.append_assoc]
  · show ("Mozilla/5.0 (compatible; MSIE 9.0; Windows NT 6.1; Trident/5.0)" : String) ≠ ""
    decide

/-- C8 witness: the request-shape theorem instantiated at a concrete host and
IP. -/
theorem update_request_shape_witness :
    ((∀ c ∈ ("example.com" : String).data, isUnreservedQueryChar c = true) ∧
     (∀ c ∈ ("1.2.3.4" : String).data, isUnreservedQueryChar c = true)) ∧
    ((buildUpdateRequest { host := "example.com", user := "user", password := "pass" }
        "1.2.3.4").method = "GET" ∧
     (buildUpdateRequest { host := "example.com", user := "user", password := "pass" }
        "1.2.3.4").url = "https://domains.google.com/nic/update" ∧
     (buildUpdateRequest { host := "example.com", user := "user", password := "pass" }
        "1.2.3.4").rawQuery = "hostname=" ++ "example.com" ++ "&myip=" ++ "1.2.3.4" ∧
     (buildUpdateRequest { host := "example.com", user := "user", password := "pass" }
        "1.2.3.4").authorization = "Basic " ++ base64Encode ("user" ++ ":" ++ "pass") ∧
     (buildUpdateRequest { host := "example.com", user := "user", password := "pass" }
        "1.2.3.4").userAgent ≠ "" ∧
     serviceHTTPClient.timeoutSeconds = some httpTimeoutSeconds) :=
  ⟨⟨by decide, by decide⟩,
   update_request_shape { host := "example.com", user := "user", password := "pass" }
     "1.2.3.4" (by decide) (by decide)⟩

/-- C9, counterexample: a response with the non-2xx status 150 is treated as
success by `externalIP` (trimmed body returned), and a transport failure is
reported through a fresh error value carrying no cause — so errors neither
occur exactly on non-2xx statuses nor wrap the transport cause. -/
theorem external_ip_cex :
    (150 : Nat) < 200 ∧
    externalIP (HTTPResult.response 150 (Except.ok " 1.2.3.4 ")) = Except.ok "1.2.3.4" ∧
    externalIP (HTTPResult.transportError "connection refused")
      = Except.error IPError.transport := by
  decide

/-- C9 (amended): `externalIP` succeeds exactly when the transport call and
the body read succeed and the status is below 300 (sub-200 statuses
included), returning the body with surrounding whitespace trimmed; the
transport-failure error is a fresh error that does not carry the cause. -/
theorem external_ip_behavior :
    (∀ r, (∃ ip, externalIP r = Except.ok ip) ↔
        ∃ s b, r = HTTPResult.response s (Except.ok b) ∧ s < 300) ∧
    (∀ s b, externalIP (HTTPResult.response s (Except.ok b))
        = if 300 ≤ s then Except.error (IPError.badStatus s)
          else Except.ok (trimSpace b)) ∧
    (∀ c, externalIP (HTTPResult.transportError c) = Except.error IPError.transport) ∧
    trimSpace " 1.2.3.4\n" = "1.2.3.4" := by
  refine ⟨?_, fun s b => rfl, fun c => rfl, by decide⟩
  intro r
  cases r with
  | transportError c => simp [externalIP]
  | response s bodyRead =>
    cases bodyRead with
    | error c =>
      by_cases h : 300 ≤ s <;> simp [externalIP, h]
    | ok b =>
      by_cases h : 300 ≤ s
      · simp [externalIP, h]
      · simp [externalIP, h]
        omega

/-- C10: the client `externalIP` constructs has no request timeout, unlike
the update client built by `New`, which carries the 5-second timeout; the two
configurations are distinct. -/
theorem external_ip_client_untimed :
    externalIPClient.timeoutSeconds = none ∧
    serviceHTTPClient.timeoutSeconds = some 5 ∧
    externalIPClient ≠ serviceHTTPClient := by decide

end GoDNS
